import Mathlib

/- Verification of the client-side data-derivation pipeline of the
Projects-Dashboard repository: filter, sort, aggregation (KPIs and charts)
and pagination, as implemented in src/api/kpis.ts,
src/pages/DashboardPage.tsx and src/components/ChartsPanel.tsx. -/

/-- Project status enum, from src/types/project.ts. -/
inductive ProjectStatus
  | ACTIVE
  | PAUSED
  | DONE
deriving DecidableEq, Repr

/-- Project record, from src/types/project.ts.  `budget` and `spent` are
modelled as `Option Int`: the dashboard code guards them with `?? 0` /
`?? ""` and its comparator handles `null`/`undefined`, so absent values
are representable; all amounts appearing in the repository are integral. -/
structure Project where
  id : Int
  name : String
  status : ProjectStatus
  owner : String
  budget : Option Int
  spent : Option Int
  createdAt : String
deriving DecidableEq, Repr

/-- Label of a status, the string literal used throughout the code. -/
def statusLabel : ProjectStatus → String
  | .ACTIVE => "ACTIVE"
  | .PAUSED => "PAUSED"
  | .DONE => "DONE"

/-- Status filter, the `"ALL" | ProjectStatus` union of the dashboards. -/
inductive StatusFilter
  | ALL
  | only (s : ProjectStatus)
deriving DecidableEq, Repr

/-- Sort keys of the kpis.ts dashboard. -/
inductive SortKey
  | createdAt
  | name
  | owner
  | budget
  | spent
  | status
deriving DecidableEq, Repr

/-- Sort direction (`"asc" | "desc"`). -/
inductive SortDir
  | asc
  | desc
deriving DecidableEq, Repr

/-- JS `s.toLowerCase()` (ASCII case folding, as `Char.toLower`). -/
def jsToLower (s : String) : String :=
  String.mk (s.data.map Char.toLower)

/-- Strip leading and trailing whitespace from a character list. -/
def trimChars (l : List Char) : List Char :=
  ((l.dropWhile Char.isWhitespace).reverse.dropWhile Char.isWhitespace).reverse

/-- kpis.ts `normalize`: `(s ?? "").toLowerCase().trim()`. -/
def normalizeJs (s : String) : String :=
  String.mk (trimChars (jsToLower s).data)

/-- `leadsWith q l` holds when `q` is an initial segment of `l`. -/
def leadsWith : List Char → List Char → Bool
  | [], _ => true
  | _ :: _, [] => false
  | a :: as, b :: bs => a == b && leadsWith as bs

/-- `hasSub q l`: `q` occurs as a contiguous run inside `l`
(JS `l.includes(q)` on strings). -/
def hasSub (q : List Char) : List Char → Bool
  | [] => q.isEmpty
  | c :: rest => leadsWith q (c :: rest) || hasSub q rest

/-- JS `hay.includes(q)`. -/
def jsIncludes (hay q : String) : Bool :=
  hasSub q.data hay.data

/-- JS `String(p.budget ?? "")`: absent amounts print as the empty string. -/
def optIntStr : Option Int → String
  | none => ""
  | some n => toString n

/-- Join a list of strings with single-space separators (`.join(" ")`). -/
def joinSpace : List String → List Char
  | [] => []
  | [s] => s.data
  | s :: t :: rest => s.data ++ (' ' :: joinSpace (t :: rest))

/-- The searchable haystack of kpis.ts: the seven fields, each passed
through `normalize`, joined with single spaces. -/
def hayOf (p : Project) : String :=
  String.mk (joinSpace
    ([p.name, p.owner, toString p.id, statusLabel p.status,
      optIntStr p.budget, optIntStr p.spent, p.createdAt].map normalizeJs))

/-- `statusFilter === "ALL" ? true : p.status === statusFilter`. -/
def statusMatches (sf : StatusFilter) (p : Project) : Bool :=
  match sf with
  | .ALL => true
  | .only s => p.status == s

/-- Row predicate of kpis.ts `filteredProjects` (with `q` already
normalized): `if (!q) return matchesStatus;
return matchesStatus && hay.includes(q)`. -/
def rowMatches (q : String) (sf : StatusFilter) (p : Project) : Bool :=
  let matchesStatus := statusMatches sf p
  if q = ("") then matchesStatus
  else matchesStatus && jsIncludes (hayOf p) q

/-- Filter stage of kpis.ts. -/
def filterStage (projects : List Project) (query : String) (sf : StatusFilter) :
    List Project :=
  projects.filter (rowMatches (normalizeJs query) sf)

/-- Untyped values flowing into the kpis.ts `compare` helper. -/
inductive JsVal
  | num (n : Int)
  | str (s : String)
  | missing
deriving DecidableEq, Repr

/-- Code-point lexicographic three-way comparison, the model of JS
`String.prototype.localeCompare` in the default collation. -/
def lexCmp : List Char → List Char → Int
  | [], [] => 0
  | [], _ :: _ => -1
  | _ :: _, [] => 1
  | a :: as, b :: bs =>
    if a.toNat = b.toNat then lexCmp as bs
    else if a.toNat < b.toNat then -1 else 1

/-- kpis.ts `compare(a, b)`: nulls first, numbers by difference, anything
else stringified and compared as strings. -/
def jsCompare : JsVal → JsVal → Int
  | .missing, .missing => 0
  | .missing, _ => -1
  | _, .missing => 1
  | .num a, .num b => a - b
  | .num a, .str t => lexCmp (toString a).data t.data
  | .str s, .num b => lexCmp s.data (toString b).data
  | .str s, .str t => lexCmp s.data t.data

/-- `(a as any)[sortKey]` of kpis.ts. -/
def sortVal (p : Project) : SortKey → JsVal
  | .createdAt => .str p.createdAt
  | .name => .str p.name
  | .owner => .str p.owner
  | .status => .str (statusLabel p.status)
  | .budget => match p.budget with | some n => .num n | none => .missing
  | .spent => match p.spent with | some n => .num n | none => .missing

/-- Directed comparator of kpis.ts: `sortDir === "asc" ? c : -c`. -/
def rowCmp (k : SortKey) (d : SortDir) (a b : Project) : Int :=
  let c := jsCompare (sortVal a k) (sortVal b k)
  match d with
  | .asc => c
  | .desc => -c

/-- Sort stage of kpis.ts.  JS `Array.prototype.sort` is a stable sort
driven by the sign of the comparator; it is modelled as the stable
`List.insertionSort` with respect to `rowCmp k d a b ≤ 0`. -/
def sortStage (l : List Project) (k : SortKey) (d : SortDir) : List Project :=
  l.insertionSort (fun a b => rowCmp k d a b ≤ 0)

/-- The canonical filtered+sorted collection of kpis.ts. -/
def filteredSorted (projects : List Project) (query : String) (sf : StatusFilter)
    (k : SortKey) (d : SortDir) : List Project :=
  sortStage (filterStage projects query sf) k d

/-- The four scalar KPIs.  kpis.ts returns them as labelled, EUR-formatted
display entries; the `Intl.NumberFormat` layer is presentation and is
omitted here, the numeric values are kept. -/
structure KPISet where
  totalBudget : Int
  totalSpent : Int
  activeCount : Nat
  burnRate : Int
deriving DecidableEq, Repr

/-- JS `Math.round` on an exact rational: round half toward positive
infinity, i.e. the floor of `x + 1/2`. -/
def jsRound (x : Rat) : Int :=
  (x + 1 / 2).floor

/-- kpis.ts `calculateKPIs`. -/
def calculateKPIs (projects : List Project) : KPISet :=
  let totalBudget : Int := projects.foldl (fun s p => s + (p.budget.getD 0)) 0
  let totalSpent : Int := projects.foldl (fun s p => s + (p.spent.getD 0)) 0
  let activeCount := (projects.filter (fun p => p.status == .ACTIVE)).length
  let burnRate :=
    if totalBudget ≤ 0 then 0
    else jsRound ((totalSpent : Rat) / (totalBudget : Rat) * 100)
  { totalBudget := totalBudget, totalSpent := totalSpent,
    activeCount := activeCount, burnRate := burnRate }

/-- ChartsPanel `countByStatus`: a fold bumping one counter per status,
emitted as the three labelled entries (all labels always present). -/
def countByStatus (projects : List Project) : List (String × Nat) :=
  let m := projects.foldl
    (fun (m : Nat × Nat × Nat) p =>
      match p.status with
      | .ACTIVE => (m.1 + 1, m.2.1, m.2.2)
      | .PAUSED => (m.1, m.2.1 + 1, m.2.2)
      | .DONE => (m.1, m.2.1, m.2.2 + 1))
    (0, 0, 0)
  [("ACTIVE", m.1), ("PAUSED", m.2.1), ("DONE", m.2.2)]

/-- One bar of the Top-budgets chart (ChartsPanel emits id, name, budget
and spent, the amounts through `Number(_ ?? 0)`). -/
structure BudgetBar where
  id : Int
  name : String
  budget : Int
  spent : Int
deriving DecidableEq, Repr

/-- Comparator relation of `topBudget`: `(b.budget ?? 0) - (a.budget ?? 0)`
keeps `a` before `b` when it is ≤ 0. -/
def budgetDescLe (a b : Project) : Prop :=
  (b.budget.getD 0) - (a.budget.getD 0) ≤ 0

instance : DecidableRel budgetDescLe :=
  fun _ _ => inferInstanceAs (Decidable (_ ≤ _))

/-- ChartsPanel `topBudget`: copy, sort by budget descending (stable),
take the first 6, project the chart fields. -/
def topBudget (projects : List Project) : List BudgetBar :=
  ((projects.insertionSort budgetDescLe).take 6).map
    (fun p => { id := p.id, name := p.name,
                budget := p.budget.getD 0, spent := p.spent.getD 0 })

/-- JS `arr.slice(start, stop)` with the negative-index convention. -/
def jsSlice (l : List Project) (start stop : Int) : List Project :=
  let n : Int := l.length
  let s := if start < 0 then max (n + start) 0 else min start n
  let e := if stop < 0 then max (n + stop) 0 else min stop n
  (l.drop s.toNat).take (e - s).toNat

/-- `Math.max(1, Math.ceil(n / pageSize))`.  The exact rational ceiling
is computed by integer ceiling division; `totalPagesOf_eq_ceil` proves
that the two agree for every positive page size. -/
def totalPagesOf (n : Nat) (size : Nat) : Int :=
  max 1 (((n + size - 1) / size : Nat) : Int)

/-- kpis.ts `safePage`: `Math.min(page, totalPages)` — no lower clamp. -/
def safePageKpis (page tp : Int) : Int :=
  min page tp

/-- DashboardPage.tsx `clamp(n, min, max) = Math.max(min, Math.min(max, n))`. -/
def jsClamp (n lo hi : Int) : Int :=
  max lo (min hi n)

/-- DashboardPage.tsx `safePage = clamp(page, 1, totalPages)`. -/
def safePageDp (page tp : Int) : Int :=
  jsClamp page 1 tp

/-- kpis.ts `pagedProjects`: `slice(start, start + pageSize)` with
`start = (safePage - 1) * pageSize`. -/
def pagedKpis (l : List Project) (safePage : Int) (size : Nat) : List Project :=
  jsSlice l ((safePage - 1) * size) ((safePage - 1) * size + size)

/-- DashboardPage.tsx `pageItems`:
`slice((safePage - 1) * pageSize, safePage * pageSize)`. -/
def pagedDp (l : List Project) (safePage : Int) (size : Nat) : List Project :=
  jsSlice l ((safePage - 1) * size) (safePage * size)

/-- Everything the kpis.ts dashboard derives on one render. -/
structure RenderOut where
  kpis : KPISet
  statusData : List (String × Nat)
  topBars : List BudgetBar
  paged : List Project
  totalPages : Int
  safePage : Int
deriving DecidableEq, Repr

/-- One render of the kpis.ts dashboard (pageSize = 5): filter, sort, then
KPIs and both chart datasets from the filtered+sorted collection, and the
paginated slice of the same collection. -/
def render (projects : List Project) (query : String) (sf : StatusFilter)
    (k : SortKey) (d : SortDir) (page : Int) : RenderOut :=
  let fs := filteredSorted projects query sf k d
  let tp := totalPagesOf fs.length 5
  let sp := safePageKpis page tp
  { kpis := calculateKPIs fs
    statusData := countByStatus fs
    topBars := topBudget fs
    paged := pagedKpis fs sp 5
    totalPages := tp
    safePage := sp }

/-- DashboardPage.tsx query normalization: `q.trim().toLowerCase()`. -/
def dpNormalize (q : String) : String :=
  jsToLower (String.mk (trimChars q.data))

/-- DashboardPage.tsx filter predicate (`qq` already normalized):
lower-cased name or owner substring, or stringified id substring, and the
status predicate. -/
def dpMatches (qq : String) (sf : StatusFilter) (p : Project) : Bool :=
  let matchesQ := (qq = ("")) || jsIncludes (jsToLower p.name) qq
    || jsIncludes (jsToLower p.owner) qq || jsIncludes (toString p.id) qq
  let matchesStatus := statusMatches sf p
  matchesQ && matchesStatus

/-- Sort keys of DashboardPage.tsx. -/
inductive DpSortKey
  | createdAt
  | budget
  | spent
deriving DecidableEq, Repr

/-- Numeric sort value of DashboardPage.tsx.  For `createdAt` the code
takes `new Date(p.createdAt).getTime()`; on the canonical `YYYY-MM-DD`
strings that timestamp is order-isomorphic to the digit-concatenation
value computed here. -/
def dpSortNum (p : Project) : DpSortKey → Int
  | .createdAt =>
    p.createdAt.data.foldl
      (fun n c => if c.isDigit then n * 10 + ((c.toNat : Int) - 48) else n) 0
  | .budget => p.budget.getD 0
  | .spent => p.spent.getD 0

/-- DashboardPage.tsx `filteredSorted` (the leading `.slice()` copy is the
identity on values; `dir` applies by swapping the operands of the
subtraction). -/
def dpFilteredSorted (data : List Project) (q : String) (sf : StatusFilter)
    (k : DpSortKey) (d : SortDir) : List Project :=
  (data.filter (dpMatches (dpNormalize q) sf)).insertionSort
    (fun a b =>
      (match d with
       | .asc => dpSortNum a k - dpSortNum b k
       | .desc => dpSortNum b k - dpSortNum a k) ≤ 0)

/-- Filter/sort/page state of the kpis.ts dashboard. -/
structure UiState where
  query : String
  statusFilter : StatusFilter
  sortKey : SortKey
  sortDir : SortDir
  page : Int
deriving DecidableEq, Repr

/-- Initial kpis.ts state (the `useState` initializers). -/
def uiInit : UiState :=
  { query := "", statusFilter := .ALL, sortKey := .createdAt,
    sortDir := .desc, page := 1 }

/-- User events on the kpis.ts dashboard controls. -/
inductive Ev
  | setQuery (q : String)
  | setStatus (sf : StatusFilter)
  | setSortKey (k : SortKey)
  | setSortDir (d : SortDir)
  | prevPage
  | nextPage
deriving DecidableEq, Repr

/-- `totalPages` as the kpis.ts dashboard computes it in state `s`
(pageSize = 5). -/
def kpisTotalPages (projects : List Project) (s : UiState) : Int :=
  totalPagesOf
    (filteredSorted projects s.query s.statusFilter s.sortKey s.sortDir).length 5

/-- One processed event of the kpis.ts dashboard.  A `set` with an
unchanged value is a React no-op (the state update bails out); a changed
value re-renders and the `useEffect` on `[query, statusFilter, sortKey,
sortDir]` then resets the page to 1, giving the post-event state.
`Prev`/`Next` follow the handlers at their `onClick` sites. -/
def kpisStep (projects : List Project) (s : UiState) : Ev → UiState
  | .setQuery q =>
    if q = s.query then s else { s with query := q, page := 1 }
  | .setStatus sf =>
    if sf = s.statusFilter then s else { s with statusFilter := sf, page := 1 }
  | .setSortKey k =>
    if k = s.sortKey then s else { s with sortKey := k, page := 1 }
  | .setSortDir d =>
    if d = s.sortDir then s else { s with sortDir := d, page := 1 }
  | .prevPage => { s with page := max 1 (s.page - 1) }
  | .nextPage => { s with page := min (kpisTotalPages projects s) (s.page + 1) }

/-- Reachability of kpis.ts dashboard states from the initial state. -/
inductive KpisReach (projects : List Project) : UiState → Prop
  | init : KpisReach projects uiInit
  | step (s : UiState) (e : Ev) :
      KpisReach projects s → KpisReach projects (kpisStep projects s e)

/-- Filter/sort/page state of DashboardPage.tsx. -/
structure DpState where
  q : String
  status : StatusFilter
  sort : DpSortKey
  dir : SortDir
  page : Int
deriving DecidableEq, Repr

/-- Initial DashboardPage.tsx state. -/
def dpInit : DpState :=
  { q := "", status := .ALL, sort := .createdAt, dir := .desc, page := 1 }

/-- User events on the DashboardPage.tsx controls. -/
inductive DpEv
  | setQ (q : String)
  | setStatus (sf : StatusFilter)
  | setSort (k : DpSortKey)
  | setDir (d : SortDir)
  | prevPage
  | nextPage
deriving DecidableEq, Repr

/-- `totalPages` as DashboardPage.tsx computes it (pageSize = 6). -/
def dpTotalPages (data : List Project) (s : DpState) : Int :=
  totalPagesOf (dpFilteredSorted data s.q s.status s.sort s.dir).length 6

/-- One processed event of DashboardPage.tsx, from the handlers: the
search and status handlers call `setPage(1)` next to the update, the sort
key and direction handlers do not touch the page. -/
def dpStep (data : List Project) (s : DpState) : DpEv → DpState
  | .setQ q => { s with q := q, page := 1 }
  | .setStatus sf => { s with status := sf, page := 1 }
  | .setSort k => { s with sort := k }
  | .setDir d => { s with dir := d }
  | .prevPage => { s with page := max 1 (s.page - 1) }
  | .nextPage => { s with page := min (dpTotalPages data s) (s.page + 1) }

/-- Read an array of the tiny array store used for the frame claims. -/
def hget : List (List Project) → Nat → List Project
  | [], _ => []
  | a :: _, 0 => a
  | _ :: t, n + 1 => hget t n

/-- Overwrite an array of the store in place. -/
def hset : List (List Project) → Nat → List Project → List (List Project)
  | [], _, _ => []
  | _ :: t, 0, a => a :: t
  | b :: t, n + 1, a => b :: hset t n a

/-- Allocate a fresh array, returning the store and the new index. -/
def halloc (h : List (List Project)) (a : List Project) :
    List (List Project) × Nat :=
  (h ++ [a], h.length)

/-- One recomputation of the kpis.ts pipeline with the JS allocation and
in-place-mutation behaviour made explicit: `filter` allocates a fresh
array, `.sort()` mutates that fresh array in place, and ChartsPanel's
`[...projects].sort(...)` first allocates a copy and then sorts the copy
in place.  Returns the final store, the index of the filtered+sorted
array (handed to KPIs, charts and pagination) and the index of the chart
copy. -/
def runPipelineHeap (h0 : List (List Project)) (iProj : Nat) (query : String)
    (sf : StatusFilter) (k : SortKey) (d : SortDir) :
    List (List Project) × Nat × Nat :=
  let a1 := halloc h0 (filterStage (hget h0 iProj) query sf)
  let h2 := hset a1.1 a1.2 (sortStage (hget a1.1 a1.2) k d)
  let a3 := halloc h2 (hget h2 a1.2)
  let h4 := hset a3.1 a3.2 ((hget a3.1 a3.2).insertionSort budgetDescLe)
  (h4, a1.2, a3.2)

/-- A left fold adding `f` over a list equals the starting accumulator
plus the sum of the mapped list. -/
theorem foldl_add_map_sum (f : Project → Int) (l : List Project) (a : Int) :
    l.foldl (fun s p => s + f p) a = a + (l.map f).sum := by
  induction l generalizing a with
  | nil => simp
  | cons p t ih =>
    simp only [List.foldl_cons, List.map_cons, List.sum_cons, ih]
    ring

/-- Swapping the arguments of `lexCmp` negates the result. -/
theorem lexCmp_swap : ∀ a b : List Char, lexCmp b a = -lexCmp a b := by
  intro a
  induction a with
  | nil => intro b; cases b <;> simp [lexCmp]
  | cons x xs ih =>
    intro b
    cases b with
    | nil => simp [lexCmp]
    | cons y ys =>
      simp only [lexCmp]
      split_ifs <;> first | exact ih ys | omega

/-- Swapping the arguments of the kpis.ts comparator negates the result. -/
theorem jsCompare_swap (v w : JsVal) : jsCompare w v = -jsCompare v w := by
  cases v <;> cases w <;> simp only [jsCompare] <;>
    first | omega | exact lexCmp_swap _ _

/-- Nonpositive `lexCmp` results compose transitively. -/
theorem lexCmp_le_trans :
    ∀ a b c : List Char, lexCmp a b ≤ 0 → lexCmp b c ≤ 0 → lexCmp a c ≤ 0
  | [], _, c, _, _ => by cases c <;> simp [lexCmp]
  | x :: xs, [], _, h1, _ => by simp [lexCmp] at h1
  | x :: xs, y :: ys, [], _, h2 => by simp [lexCmp] at h2
  | x :: xs, y :: ys, z :: zs, h1, h2 => by
    simp only [lexCmp] at h1 h2 ⊢
    split_ifs at h1 h2 ⊢ <;>
      first | omega | exact lexCmp_le_trans xs ys zs h1 h2

/-- For a fixed sort key the comparator values of any three records are
shape-uniform, and nonpositive comparisons compose transitively. -/
theorem jsCompare_key_trans (k : SortKey) (a b c : Project) :
    jsCompare (sortVal a k) (sortVal b k) ≤ 0 →
    jsCompare (sortVal b k) (sortVal c k) ≤ 0 →
    jsCompare (sortVal a k) (sortVal c k) ≤ 0 := by
  cases k
  case createdAt => simp only [sortVal, jsCompare]; exact lexCmp_le_trans _ _ _
  case name => simp only [sortVal, jsCompare]; exact lexCmp_le_trans _ _ _
  case owner => simp only [sortVal, jsCompare]; exact lexCmp_le_trans _ _ _
  case status => simp only [sortVal, jsCompare]; exact lexCmp_le_trans _ _ _
  case budget =>
    rcases ha : a.budget with _ | n <;> rcases hb : b.budget with _ | m <;>
      rcases hc : c.budget with _ | r <;>
      simp [sortVal, ha, hb, hc, jsCompare] <;> omega
  case spent =>
    rcases ha : a.spent with _ | n <;> rcases hb : b.spent with _ | m <;>
      rcases hc : c.spent with _ | r <;>
      simp [sortVal, ha, hb, hc, jsCompare] <;> omega

/-- The directed row comparator is transitive in its nonpositive cone. -/
theorem rowCmp_le_trans (k : SortKey) (d : SortDir) {a b c : Project} :
    rowCmp k d a b ≤ 0 → rowCmp k d b c ≤ 0 → rowCmp k d a c ≤ 0 := by
  cases d
  case asc => simpa [rowCmp] using jsCompare_key_trans k a b c
  case desc =>
    simp only [rowCmp]
    intro h1 h2
    have s1 := jsCompare_swap (sortVal a k) (sortVal b k)
    have s2 := jsCompare_swap (sortVal b k) (sortVal c k)
    have h1' : jsCompare (sortVal b k) (sortVal a k) ≤ 0 := by omega
    have h2' : jsCompare (sortVal c k) (sortVal b k) ≤ 0 := by omega
    have h3 := jsCompare_key_trans k c b a h2' h1'
    have s3 := jsCompare_swap (sortVal a k) (sortVal c k)
    omega

/-- The directed row comparator is total. -/
theorem rowCmp_le_total (k : SortKey) (d : SortDir) (a b : Project) :
    rowCmp k d a b ≤ 0 ∨ rowCmp k d b a ≤ 0 := by
  have hs := jsCompare_swap (sortVal a k) (sortVal b k)
  cases d <;> simp only [rowCmp] <;> omega

/-- The output of the sort stage is sorted by the directed comparator. -/
theorem sortStage_sorted (l : List Project) (k : SortKey) (d : SortDir) :
    List.Sorted (fun a b => rowCmp k d a b ≤ 0) (sortStage l k d) := by
  letI : IsTotal Project (fun a b => rowCmp k d a b ≤ 0) :=
    ⟨fun a b => rowCmp_le_total k d a b⟩
  letI : IsTrans Project (fun a b => rowCmp k d a b ≤ 0) :=
    ⟨fun _ _ _ h1 h2 => rowCmp_le_trans k d h1 h2⟩
  exact List.sorted_insertionSort _ l

/-- Shorthand for building a concrete project record. -/
def mkP (i : Int) (nm ow : String) (st : ProjectStatus) (b sp : Int)
    (ca : String) : Project :=
  { id := i, name := nm, owner := ow, status := st,
    budget := some b, spent := some sp, createdAt := ca }

/-- Scenario A of the spec: 7 records, 4 ACTIVE, budgets
[100,200,300,0,50,75,125] (sum 850), spent summing to 500. -/
def scenarioA : List Project :=
  [mkP 1 ("P1") ("O") .ACTIVE 100 50 ("2024-01-01"),
   mkP 2 ("P2") ("O") .ACTIVE 200 100 ("2024-01-02"),
   mkP 3 ("P3") ("O") .PAUSED 300 150 ("2024-01-03"),
   mkP 4 ("P4") ("O") .ACTIVE 0 0 ("2024-01-04"),
   mkP 5 ("P5") ("O") .DONE 50 50 ("2024-01-05"),
   mkP 6 ("P6") ("O") .ACTIVE 75 75 ("2024-01-06"),
   mkP 7 ("P7") ("O") .PAUSED 125 75 ("2024-01-07")]

/-- Scenario D of the spec: ids 3 and 7 share budget 200, id 3 first;
a third record with a larger budget sorts ahead under `desc`. -/
def dRec3 : Project := mkP 3 ("A") ("O") .ACTIVE 200 10 ("2024-01-01")

/-- Second record of Scenario D (budget 500). -/
def dRec1 : Project := mkP 1 ("B") ("O") .ACTIVE 500 10 ("2024-01-02")

/-- Third record of Scenario D (budget 200, after id 3). -/
def dRec7 : Project := mkP 7 ("C") ("O") .ACTIVE 200 10 ("2024-01-03")

/-- The Scenario D input collection. -/
def scenarioD : List Project := [dRec3, dRec1, dRec7]

/-- A record whose name carries a trailing space (legal data: non-empty
after trimming). -/
def pAnn : Project :=
  { id := 1, name := "Ann ", status := .ACTIVE, owner := "Bob",
    budget := some 100, spent := some 50, createdAt := "2024-01-01" }

/-- Two records sharing budget 100, names "a" and "b". -/
def pX : Project := mkP 1 ("a") ("O") .ACTIVE 100 10 ("2024-01-01")

/-- Second equal-budget record. -/
def pY : Project := mkP 2 ("b") ("O") .ACTIVE 100 20 ("2024-01-02")

/-- A record with a distinct budget 300. -/
def pZ : Project := mkP 3 ("c") ("O") .ACTIVE 300 10 ("2024-01-03")

/-- C1: the KPI set and both chart datasets of a kpis.ts render are
computed exclusively from the filtered+sorted collection: `totalBudget`
is the sum of the budgets of the filtered+sorted records, and two renders
that differ only in the page index have identical KPIs, status-breakdown
data and Top-budgets data. -/
theorem C1_kpis_charts_from_filteredSorted
    (projects : List Project) (query : String) (sf : StatusFilter)
    (k : SortKey) (d : SortDir) (page page2 : Int) :
    (render projects query sf k d page).kpis.totalBudget =
      ((filteredSorted projects query sf k d).map (fun p => p.budget.getD 0)).sum
    ∧ (render projects query sf k d page).kpis =
        (render projects query sf k d page2).kpis
    ∧ (render projects query sf k d page).statusData =
        (render projects query sf k d page2).statusData
    ∧ (render projects query sf k d page).topBars =
        (render projects query sf k d page2).topBars := by
  refine ⟨?_, rfl, rfl, rfl⟩
  show (calculateKPIs (filteredSorted projects query sf k d)).totalBudget = _
  simp [calculateKPIs, foldl_add_map_sum]

/-- Batteries `Rat.floor` agrees with the `FloorRing` floor. -/
theorem ratFloor_eq_intFloor (q : Rat) : q.floor = ⌊q⌋ := by
  rw [Rat.floor_def', Rat.floor_def]

/-- Integer ceiling division `(n + size - 1) / size` computes the exact
rational ceiling `⌈n / size⌉` for every positive `size`. -/
theorem totalPagesOf_eq_ceil (n size : Nat) (h : 0 < size) :
    totalPagesOf n size = max 1 ⌈(n : Rat) / (size : Rat)⌉ := by
  have hq1 : (n + size - 1) / size * size ≤ n + size - 1 := Nat.div_mul_le_self _ _
  have hq2 : n + size - 1 < (n + size - 1) / size * size + size := by
    have h2 := (Nat.div_lt_iff_lt_mul h).mp (Nat.lt_succ_self ((n + size - 1) / size))
    rw [Nat.succ_mul] at h2
    exact h2
  have hle : n ≤ (n + size - 1) / size * size := by
    generalize (n + size - 1) / size * size = A at hq2 ⊢
    omega
  have hlt : (n + size - 1) / size * size < n + size := by
    generalize (n + size - 1) / size * size = A at hq1 ⊢
    omega
  have hs : (0 : Rat) < (size : Rat) := by exact_mod_cast h
  rw [totalPagesOf]
  congr 1
  symm
  apply le_antisymm
  · rw [Int.ceil_le, div_le_iff hs]
    exact_mod_cast hle
  · have hlt2 : ((((n + size - 1) / size : Nat) : Int) : Rat) - 1 <
        (n : Rat) / (size : Rat) := by
      rw [lt_div_iff hs]
      have hc : (((n + size - 1) / size : Nat) : Rat) * (size : Rat) <
          (n : Rat) + (size : Rat) := by exact_mod_cast hlt
      rw [Int.cast_natCast, sub_mul, one_mul]
      linarith
    have h3 : (((n + size - 1) / size : Nat) : Int) - 1 <
        ⌈(n : Rat) / (size : Rat)⌉ := by
      apply Int.lt_ceil.mpr
      rw [Int.cast_sub, Int.cast_one]
      exact hlt2
    omega

/-- `Math.round` lands within one half of its argument. -/
theorem jsRound_nearest (x : Rat) : |(jsRound x : Rat) - x| ≤ 1 / 2 := by
  have hb : (x + 1 / 2).floor = ⌊x + 1 / 2⌋ := by
    rw [Rat.floor_def', Rat.floor_def]
  have h1 := Int.floor_le (x + 1 / 2)
  have h2 := Int.lt_floor_add_one (x + 1 / 2)
  rw [jsRound, hb, abs_le]
  constructor <;> push_cast <;> linarith

/-- C7: `burnRate` is 0 when `totalBudget ≤ 0` and otherwise the rounded
percentage `totalSpent / totalBudget * 100` (within one half of the exact
ratio); Scenario A yields `burnRate = 59` and `activeCount = 4`; the
empty input yields all-zero KPIs. -/
theorem C7_burnRate (l : List Project) :
    ((calculateKPIs l).burnRate =
      if (calculateKPIs l).totalBudget ≤ 0 then 0
      else jsRound (((calculateKPIs l).totalSpent : Rat) /
        ((calculateKPIs l).totalBudget : Rat) * 100))
    ∧ (0 < (calculateKPIs l).totalBudget →
        |((calculateKPIs l).burnRate : Rat) -
          ((calculateKPIs l).totalSpent : Rat) /
            ((calculateKPIs l).totalBudget : Rat) * 100| ≤ 1 / 2)
    ∧ calculateKPIs scenarioA =
        { totalBudget := 850, totalSpent := 500, activeCount := 4, burnRate := 59 }
    ∧ calculateKPIs [] =
        { totalBudget := 0, totalSpent := 0, activeCount := 0, burnRate := 0 } := by
  have c1 : (calculateKPIs l).burnRate =
      if (calculateKPIs l).totalBudget ≤ 0 then 0
      else jsRound (((calculateKPIs l).totalSpent : Rat) /
        ((calculateKPIs l).totalBudget : Rat) * 100) := rfl
  have e1 : (calculateKPIs scenarioA).totalBudget = 850 := by decide
  have e2 : (calculateKPIs scenarioA).totalSpent = 500 := by decide
  have e3 : (calculateKPIs scenarioA).activeCount = 4 := by decide
  have e4 : (calculateKPIs scenarioA).burnRate = 59 := by
    have c1' : (calculateKPIs scenarioA).burnRate =
        if (calculateKPIs scenarioA).totalBudget ≤ 0 then 0
        else jsRound (((calculateKPIs scenarioA).totalSpent : Rat) /
          ((calculateKPIs scenarioA).totalBudget : Rat) * 100) := rfl
    rw [c1', e1, e2, if_neg (by omega)]
    show ((((500 : Int) : Rat) / ((850 : Int) : Rat) * 100) + 1 / 2).floor = 59
    rw [ratFloor_eq_intFloor, Int.floor_eq_iff]
    constructor <;> push_cast <;> norm_num
  have hA : calculateKPIs scenarioA =
      { totalBudget := 850, totalSpent := 500, activeCount := 4, burnRate := 59 } := by
    have heta : calculateKPIs scenarioA =
        { totalBudget := (calculateKPIs scenarioA).totalBudget,
          totalSpent := (calculateKPIs scenarioA).totalSpent,
          activeCount := (calculateKPIs scenarioA).activeCount,
          burnRate := (calculateKPIs scenarioA).burnRate } := rfl
    rw [heta, e1, e2, e3, e4]
  refine ⟨c1, ?_, hA, by decide⟩
  intro h
  rw [c1, if_neg (by omega)]
  exact jsRound_nearest _

/-- Witness for C7 at the Scenario A collection. -/
theorem C7_burnRate_witness :
    0 < (calculateKPIs scenarioA).totalBudget
    ∧ |((calculateKPIs scenarioA).burnRate : Rat) -
        ((calculateKPIs scenarioA).totalSpent : Rat) /
          ((calculateKPIs scenarioA).totalBudget : Rat) * 100| ≤ 1 / 2 :=
  ⟨by decide, (C7_burnRate scenarioA).2.1 (by decide)⟩

/-- C5: the kpis.ts comparator returns a negative result whenever the
first key value is missing and the second present; descending mode is
the exact numeric negation of ascending; consequently missing-valued
records precede all present-valued ones in ascending output and follow
all of them in descending output. -/
theorem C5_missing_first_asc_last_desc (p q : Project) (k : SortKey)
    (l : List Project) :
    (sortVal p k = .missing → sortVal q k ≠ .missing →
      jsCompare (sortVal p k) (sortVal q k) < 0)
    ∧ rowCmp k .desc p q = -(rowCmp k .asc p q)
    ∧ List.Pairwise (fun a b => sortVal b k = .missing → sortVal a k = .missing)
        (sortStage l k .asc)
    ∧ List.Pairwise (fun a b => sortVal a k = .missing → sortVal b k = .missing)
        (sortStage l k .desc) := by
  refine ⟨?_, rfl, ?_, ?_⟩
  · intro hp hq
    rw [hp]
    rcases h : sortVal q k with n | s | _
    · simp [jsCompare]
    · simp [jsCompare]
    · exact absurd h hq
  · refine (sortStage_sorted l k .asc).imp ?_
    intro a b hab hb
    by_contra ha
    simp only [rowCmp, hb] at hab
    rcases h : sortVal a k with n | s | _
    · rw [h] at hab; simp [jsCompare] at hab
    · rw [h] at hab; simp [jsCompare] at hab
    · exact ha h
  · refine (sortStage_sorted l k .desc).imp ?_
    intro a b hab ha
    by_contra hb
    simp only [rowCmp, ha] at hab
    rcases h : sortVal b k with n | s | _
    · rw [h] at hab; simp [jsCompare] at hab
    · rw [h] at hab; simp [jsCompare] at hab
    · exact hb h

/-- A record with an absent budget. -/
def pNoBudget : Project :=
  { id := 9, name := "N", owner := "O", status := .PAUSED,
    budget := none, spent := some 5, createdAt := "2024-02-01" }

/-- Witness for C5: an absent budget compares below a present one. -/
theorem C5_witness :
    sortVal pNoBudget SortKey.budget = JsVal.missing
    ∧ sortVal pX SortKey.budget ≠ JsVal.missing
    ∧ jsCompare (sortVal pNoBudget SortKey.budget) (sortVal pX SortKey.budget) < 0 :=
  ⟨rfl, by decide,
    (C5_missing_first_asc_last_desc pNoBudget pX SortKey.budget []).1 rfl (by decide)⟩

/-- C6: the sort stage permutes its input (nothing added, dropped or
duplicated) and is stable — records with equal comparator values keep
their input order in either direction — and in Scenario D (budgets
500/200/200 with the 200s carrying ids 3 then 7, sorted by budget
descending) the output order of ids is [1, 3, 7]. -/
theorem C6_sort_perm_stable (l : List Project) (k : SortKey) (d : SortDir)
    (a b : Project) :
    List.Perm (sortStage l k d) l
    ∧ (List.Sublist [a, b] l → jsCompare (sortVal a k) (sortVal b k) = 0 →
        List.Sublist [a, b] (sortStage l k d))
    ∧ (sortStage scenarioD SortKey.budget SortDir.desc).map Project.id = [1, 3, 7] := by
  refine ⟨List.perm_insertionSort _ l, ?_, by decide⟩
  intro hsub hcmp
  refine List.pair_sublist_insertionSort ?_ hsub
  show rowCmp k d a b ≤ 0
  cases d <;> simp only [rowCmp] <;> omega

/-- Witness for C6 stability at the two budget-200 records of Scenario D. -/
theorem C6_witness :
    List.Sublist ([dRec3, dRec7] : List Project) [dRec3, dRec7]
    ∧ jsCompare (sortVal dRec3 SortKey.budget) (sortVal dRec7 SortKey.budget) = 0
    ∧ List.Sublist [dRec3, dRec7]
        (sortStage [dRec3, dRec7] SortKey.budget SortDir.desc) :=
  ⟨List.Sublist.refl _, by decide,
    (C6_sort_perm_stable [dRec3, dRec7] SortKey.budget SortDir.desc dRec3 dRec7).2.1
      (List.Sublist.refl _) (by decide)⟩

/-- Haystack following the words of the spec for C4: the case-folded,
whitespace-joined concatenation of the seven fields — with no per-field
trimming, which is where it departs from the code. -/
def specHayOf (p : Project) : String :=
  jsToLower (String.mk (joinSpace
    [p.name, p.owner, toString p.id, statusLabel p.status,
     optIntStr p.budget, optIntStr p.spent, p.createdAt]))

/-- Filter following the words of the C4 claim: retain a record iff the
trimmed, case-folded query is empty or occurs in `specHayOf`, and the
status predicate holds. -/
def specFilter (projects : List Project) (query : String) (sf : StatusFilter) :
    List Project :=
  projects.filter (fun p =>
    ((normalizeJs query = ("")) || jsIncludes (specHayOf p) (normalizeJs query))
      && statusMatches sf p)

/-- C4 (amended): the kpis.ts filter retains a record iff the normalized
query is empty or occurs in the haystack built from the seven normalized
(case-folded and trimmed) fields, and the status predicate holds; the
retained records form a sublist of the input, i.e. keep their original
relative order. -/
theorem C4_filter_characterization (projects : List Project) (query : String)
    (sf : StatusFilter) :
    filterStage projects query sf =
      projects.filter (fun p =>
        ((normalizeJs query = ("")) || jsIncludes (hayOf p) (normalizeJs query))
          && statusMatches sf p)
    ∧ List.Sublist (filterStage projects query sf) projects := by
  constructor
  · unfold filterStage
    apply List.filter_congr
    intro p _
    by_cases hq : normalizeJs query = ("")
    · simp [rowMatches, hq]
    · simp [rowMatches, hq, Bool.and_comm]
  · exact List.filter_sublist _

/-- Counterexample for C4 as stated: on a record whose name has a
trailing space, the code's per-field trimming accepts the query
"ann bob" while the spec-worded untrimmed haystack rejects it. -/
theorem C4_counterexample :
    specFilter [pAnn] ("ann bob") .ALL = ([] : List Project)
    ∧ filterStage [pAnn] ("ann bob") .ALL = [pAnn] := by
  constructor <;> decide

/-- For a nonnegative start index, the JS slice `[a, a + size)` is the
mathematical slice: drop `a`, take `size`. -/
theorem jsSlice_nonneg (l : List Project) (a : Int) (size : Nat) (ha : 0 ≤ a) :
    jsSlice l a (a + (size : Int)) = (l.drop a.toNat).take size := by
  simp only [jsSlice]
  rw [if_neg (by omega), if_neg (by omega)]
  by_cases hle : a ≤ (l.length : Int)
  · rw [show (min a (l.length : Int)).toNat = a.toNat by omega]
    by_cases h2 : a + (size : Int) ≤ (l.length : Int)
    · rw [show (min (a + (size : Int)) (l.length : Int) - min a (l.length : Int)).toNat
          = size by omega]
    · rw [show (min (a + (size : Int)) (l.length : Int) - min a (l.length : Int)).toNat
          = l.length - a.toNat by omega]
      have hlen : (l.drop a.toNat).length = l.length - a.toNat := List.length_drop _ _
      rw [List.take_eq_take]
      omega
  · rw [show (min (a + (size : Int)) (l.length : Int) - min a (l.length : Int)).toNat
        = 0 by omega]
    rw [show (min a (l.length : Int)).toNat = l.length by omega]
    simp [List.drop_eq_nil_of_le (by omega : l.length ≤ a.toNat)]

/-- C2 (amended): with `totalPages = max(1, ceil(n / pageSize))`, the
DashboardPage.tsx pagination (two-sided clamp) keeps its index in
`[1, totalPages]` and returns the mathematical page slice of at most
`pageSize` records for every integer page index; the kpis.ts pagination
clamps only from above (`min(page, totalPages)`), so the same holds for
it only under the precondition `1 ≤ page`. -/
theorem C2_pagination (l : List Project) (page : Int) (size : Nat)
    (hsize : 0 < size) :
    (totalPagesOf l.length size = max 1 ⌈(l.length : Rat) / (size : Rat)⌉
     ∧ 1 ≤ safePageDp page (totalPagesOf l.length size)
     ∧ safePageDp page (totalPagesOf l.length size) ≤ totalPagesOf l.length size
     ∧ pagedDp l (safePageDp page (totalPagesOf l.length size)) size =
         (l.drop ((safePageDp page (totalPagesOf l.length size) - 1) * size).toNat).take size
     ∧ (pagedDp l (safePageDp page (totalPagesOf l.length size)) size).length ≤ size)
    ∧ (1 ≤ page →
        (1 ≤ safePageKpis page (totalPagesOf l.length size)
         ∧ safePageKpis page (totalPagesOf l.length size) ≤ totalPagesOf l.length size
         ∧ pagedKpis l (safePageKpis page (totalPagesOf l.length size)) size =
             (l.drop ((safePageKpis page (totalPagesOf l.length size) - 1) * size).toNat).take size
         ∧ (pagedKpis l (safePageKpis page (totalPagesOf l.length size)) size).length ≤ size)) := by
  have htp : 1 ≤ totalPagesOf l.length size := le_max_left _ _
  constructor
  · refine ⟨totalPagesOf_eq_ceil _ _ hsize, ?_, ?_, ?_, ?_⟩
    · simp only [safePageDp, jsClamp]; omega
    · simp only [safePageDp, jsClamp]; omega
    · have h1 : 1 ≤ safePageDp page (totalPagesOf l.length size) := by
        simp only [safePageDp, jsClamp]; omega
      have hmul : 0 ≤ (safePageDp page (totalPagesOf l.length size) - 1) * (size : Int) :=
        mul_nonneg (by omega) (by positivity)
      rw [pagedDp, show safePageDp page (totalPagesOf l.length size) * (size : Int) =
        (safePageDp page (totalPagesOf l.length size) - 1) * (size : Int) + (size : Int)
        by ring]
      exact jsSlice_nonneg _ _ _ hmul
    · have h1 : 1 ≤ safePageDp page (totalPagesOf l.length size) := by
        simp only [safePageDp, jsClamp]; omega
      have hmul : 0 ≤ (safePageDp page (totalPagesOf l.length size) - 1) * (size : Int) :=
        mul_nonneg (by omega) (by positivity)
      rw [pagedDp, show safePageDp page (totalPagesOf l.length size) * (size : Int) =
        (safePageDp page (totalPagesOf l.length size) - 1) * (size : Int) + (size : Int)
        by ring]
      rw [jsSlice_nonneg _ _ _ hmul]
      exact List.length_take_le _ _
  · intro hpage
    have h1 : 1 ≤ safePageKpis page (totalPagesOf l.length size) := by
      simp only [safePageKpis]; omega
    have hmul : 0 ≤ (safePageKpis page (totalPagesOf l.length size) - 1) * (size : Int) :=
      mul_nonneg (by omega) (by positivity)
    refine ⟨h1, by simp only [safePageKpis]; omega, ?_, ?_⟩
    · rw [pagedKpis]
      exact jsSlice_nonneg _ _ _ hmul
    · rw [pagedKpis, jsSlice_nonneg _ _ _ hmul]
      exact List.length_take_le _ _

/-- Counterexample for C2 as stated: at page index 0 the kpis.ts clamped
index `min(0, totalPages)` is 0, outside `[1, totalPages]`. -/
theorem C2_counterexample :
    safePageKpis 0 (totalPagesOf ([] : List Project).length 5) = 0
    ∧ ¬ (1 ≤ safePageKpis 0 (totalPagesOf ([] : List Project).length 5)) := by
  constructor <;> decide

/-- Witness for C2 at the empty collection, page 1, page size 5. -/
theorem C2_witness :
    0 < 5
    ∧ 1 ≤ safePageDp 1 (totalPagesOf ([] : List Project).length 5)
    ∧ 1 ≤ safePageKpis 1 (totalPagesOf ([] : List Project).length 5) :=
  ⟨by decide, (C2_pagination [] 1 5 (by decide)).1.2.1,
    ((C2_pagination [] 1 5 (by decide)).2 (by decide)).1⟩

/-- C3 (amended): in the kpis.ts dashboard every event that changes any
of query, status filter, sort key or sort direction leaves the page index
at 1; in DashboardPage.tsx this holds for the search and status events,
while sort-key and sort-direction events leave the page index unchanged. -/
theorem C3_page_reset (projects : List Project) (s : UiState) (e : Ev)
    (data : List Project) (t : DpState) (q : String) (sf : StatusFilter)
    (k : DpSortKey) (d : SortDir) :
    (((kpisStep projects s e).query ≠ s.query
        ∨ (kpisStep projects s e).statusFilter ≠ s.statusFilter
        ∨ (kpisStep projects s e).sortKey ≠ s.sortKey
        ∨ (kpisStep projects s e).sortDir ≠ s.sortDir) →
      (kpisStep projects s e).page = 1)
    ∧ (dpStep data t (.setQ q)).page = 1
    ∧ (dpStep data t (.setStatus sf)).page = 1
    ∧ (dpStep data t (.setSort k)).page = t.page
    ∧ (dpStep data t (.setDir d)).page = t.page := by
  refine ⟨?_, rfl, rfl, rfl, rfl⟩
  cases e with
  | setQuery q0 => by_cases h : q0 = s.query <;> simp [kpisStep, h]
  | setStatus sf0 => by_cases h : sf0 = s.statusFilter <;> simp [kpisStep, h]
  | setSortKey k0 => by_cases h : k0 = s.sortKey <;> simp [kpisStep, h]
  | setSortDir d0 => by_cases h : d0 = s.sortDir <;> simp [kpisStep, h]
  | prevPage => simp [kpisStep]
  | nextPage => simp [kpisStep]

/-- Witness for C3: a query change on the kpis.ts dashboard resets the
page to 1. -/
theorem C3_witness :
    (kpisStep [] uiInit (Ev.setQuery ("x"))).query ≠ uiInit.query
    ∧ (kpisStep [] uiInit (Ev.setQuery ("x"))).page = 1 :=
  ⟨by decide,
    (C3_page_reset [] uiInit (Ev.setQuery ("x")) [] dpInit ("") .ALL .createdAt
      .asc).1 (Or.inl (by decide))⟩

/-- Counterexample for C3 as stated: on the DashboardPage.tsx machine
over seven records (page size 6), going to page 2 and then changing the
sort key changes one of the four inputs yet leaves the page index at 2. -/
theorem C3_counterexample :
    (dpStep scenarioA (dpStep scenarioA dpInit DpEv.nextPage)
        (DpEv.setSort DpSortKey.budget)).sort
      ≠ (dpStep scenarioA dpInit DpEv.nextPage).sort
    ∧ (dpStep scenarioA (dpStep scenarioA dpInit DpEv.nextPage)
        (DpEv.setSort DpSortKey.budget)).page = 2 := by
  constructor <;> decide

/-- C9: every state of the kpis.ts pagination controls reachable from the
initial state has a stored page index of at least 1 — Prev replaces the
page by `max(1, page - 1)` and Next by `min(totalPages, page + 1)` — so
the displayed index `min(page, totalPages)` always lies in
`[1, totalPages]` although the display computation itself has no lower
clamp. -/
theorem C9_reachable_page_invariant (projects : List Project) (s : UiState)
    (h : KpisReach projects s) :
    1 ≤ s.page
    ∧ (kpisStep projects s Ev.prevPage).page = max 1 (s.page - 1)
    ∧ (kpisStep projects s Ev.nextPage).page =
        min (kpisTotalPages projects s) (s.page + 1)
    ∧ 1 ≤ min s.page (kpisTotalPages projects s)
    ∧ min s.page (kpisTotalPages projects s) ≤ kpisTotalPages projects s := by
  have htp : ∀ t : UiState, 1 ≤ kpisTotalPages projects t :=
    fun _ => le_max_left _ _
  have hpage : 1 ≤ s.page := by
    induction h with
    | init => decide
    | step t e _ ih =>
      cases e with
      | setQuery q0 => by_cases hq : q0 = t.query <;> simp [kpisStep, hq] <;> exact ih
      | setStatus s0 =>
        by_cases hq : s0 = t.statusFilter <;> simp [kpisStep, hq] <;> exact ih
      | setSortKey k0 => by_cases hq : k0 = t.sortKey <;> simp [kpisStep, hq] <;> exact ih
      | setSortDir d0 => by_cases hq : d0 = t.sortDir <;> simp [kpisStep, hq] <;> exact ih
      | prevPage => simp only [kpisStep]; omega
      | nextPage => simp only [kpisStep]; have := htp t; omega
  have := htp s
  refine ⟨hpage, rfl, rfl, by omega, by omega⟩

/-- Witness for C9 at the initial state over the empty collection. -/
theorem C9_witness :
    1 ≤ uiInit.page
    ∧ 1 ≤ min uiInit.page (kpisTotalPages [] uiInit)
    ∧ min uiInit.page (kpisTotalPages [] uiInit) ≤ kpisTotalPages [] uiInit :=
  ⟨(C9_reachable_page_invariant [] uiInit KpisReach.init).1,
    (C9_reachable_page_invariant [] uiInit KpisReach.init).2.2.2.1,
    (C9_reachable_page_invariant [] uiInit KpisReach.init).2.2.2.2⟩

/-- The Top-budgets copy sort is sorted by descending budget. -/
theorem budgetSort_sorted (l : List Project) :
    List.Sorted budgetDescLe (l.insertionSort budgetDescLe) := by
  letI : IsTotal Project budgetDescLe :=
    ⟨fun a b => by unfold budgetDescLe; omega⟩
  letI : IsTrans Project budgetDescLe :=
    ⟨fun a b c h1 h2 => by unfold budgetDescLe at h1 h2 ⊢; omega⟩
  exact List.sorted_insertionSort _ l

/-- C8 (amended): `topBudget` takes the first 6 records of the stable
budget-descending re-sort of its input (so it has `min 6 n` entries, every
selected record has a budget at least as large as every unselected one,
and budget ties keep the input order of the collection handed to the
chart); since that input is the filtered+SORTED collection, the dataset
is guaranteed independent of the upstream sort key/direction only when
the filtered records have pairwise distinct budgets. -/
theorem C8_topBudget (l : List Project) (projects : List Project)
    (query : String) (sf : StatusFilter) (k1 k2 : SortKey) (d1 d2 : SortDir)
    (a b : Project) :
    (topBudget l).length = min 6 l.length
    ∧ topBudget l = ((l.insertionSort budgetDescLe).take 6).map
        (fun p => { id := p.id, name := p.name, budget := p.budget.getD 0,
                    spent := p.spent.getD 0 })
    ∧ (∀ p ∈ (l.insertionSort budgetDescLe).take 6,
        ∀ q ∈ (l.insertionSort budgetDescLe).drop 6,
          q.budget.getD 0 ≤ p.budget.getD 0)
    ∧ (List.Sublist [a, b] l → a.budget.getD 0 = b.budget.getD 0 →
        List.Sublist [a, b] (l.insertionSort budgetDescLe))
    ∧ (List.Pairwise (fun x y => x.budget.getD 0 ≠ y.budget.getD 0)
          (filterStage projects query sf) →
        topBudget (filteredSorted projects query sf k1 d1) =
          topBudget (filteredSorted projects query sf k2 d2)) := by
  refine ⟨?_, rfl, ?_, ?_, ?_⟩
  · simp [topBudget, List.length_insertionSort]
  · intro p hp q hq
    have h := (budgetSort_sorted l).rel_of_mem_take_of_mem_drop hp hq
    unfold budgetDescLe at h
    omega
  · intro hsub heq
    exact List.pair_sublist_insertionSort
      (show budgetDescLe a b by unfold budgetDescLe; omega) hsub
  · intro hdist
    have hsymm : ∀ {x y : Project},
        x.budget.getD 0 ≠ y.budget.getD 0 → y.budget.getD 0 ≠ x.budget.getD 0 :=
      fun h => Ne.symm h
    have hperm1 : List.Perm (filteredSorted projects query sf k1 d1)
        (filterStage projects query sf) := List.perm_insertionSort _ _
    have hperm2 : List.Perm (filteredSorted projects query sf k2 d2)
        (filterStage projects query sf) := List.perm_insertionSort _ _
    have hs1 : List.Perm
        ((filteredSorted projects query sf k1 d1).insertionSort budgetDescLe)
        (filteredSorted projects query sf k1 d1) := List.perm_insertionSort _ _
    have hs2 : List.Perm
        ((filteredSorted projects query sf k2 d2).insertionSort budgetDescLe)
        (filteredSorted projects query sf k2 d2) := List.perm_insertionSort _ _
    have hp12 : List.Perm
        ((filteredSorted projects query sf k1 d1).insertionSort budgetDescLe)
        ((filteredSorted projects query sf k2 d2).insertionSort budgetDescLe) :=
      ((hs1.trans hperm1).trans hperm2.symm).trans hs2.symm
    have hne1 : List.Pairwise (fun x y => x.budget.getD 0 ≠ y.budget.getD 0)
        ((filteredSorted projects query sf k1 d1).insertionSort budgetDescLe) :=
      ((hs1.trans hperm1).pairwise_iff hsymm).mpr hdist
    have hne2 : List.Pairwise (fun x y => x.budget.getD 0 ≠ y.budget.getD 0)
        ((filteredSorted projects query sf k2 d2).insertionSort budgetDescLe) :=
      ((hs2.trans hperm2).pairwise_iff hsymm).mpr hdist
    have hstrict1 : List.Pairwise (fun x y => y.budget.getD 0 < x.budget.getD 0)
        ((filteredSorted projects query sf k1 d1).insertionSort budgetDescLe) := by
      refine ((budgetSort_sorted _).and hne1).imp ?_
      intro x y hxy
      have h1 := hxy.1
      have h2 := hxy.2
      unfold budgetDescLe at h1
      omega
    have hstrict2 : List.Pairwise (fun x y => y.budget.getD 0 < x.budget.getD 0)
        ((filteredSorted projects query sf k2 d2).insertionSort budgetDescLe) := by
      refine ((budgetSort_sorted _).and hne2).imp ?_
      intro x y hxy
      have h1 := hxy.1
      have h2 := hxy.2
      unfold budgetDescLe at h1
      omega
    haveI : IsAntisymm Project (fun x y => y.budget.getD 0 < x.budget.getD 0) :=
      ⟨fun x y h1 h2 => absurd h1 (by omega)⟩
    have heq : (filteredSorted projects query sf k1 d1).insertionSort budgetDescLe =
        (filteredSorted projects query sf k2 d2).insertionSort budgetDescLe :=
      List.eq_of_perm_of_sorted hp12 hstrict1 hstrict2
    simp only [topBudget, heq]

/-- Counterexample for C8 as stated: two filtered records share budget
100; sorting upstream by name ascending vs descending flips their order,
and the Top-budgets dataset follows that order. -/
theorem C8_counterexample :
    topBudget (filteredSorted [pX, pY] ("") .ALL .name .asc) ≠
      topBudget (filteredSorted [pX, pY] ("") .ALL .name .desc) := by
  decide

/-- Witness for C8 on a collection with pairwise distinct budgets. -/
theorem C8_witness :
    List.Pairwise (fun x y => x.budget.getD 0 ≠ y.budget.getD 0)
      (filterStage [pX, pZ] ("") .ALL)
    ∧ topBudget (filteredSorted [pX, pZ] ("") .ALL .name .asc) =
        topBudget (filteredSorted [pX, pZ] ("") .ALL .name .desc) :=
  ⟨by decide,
    (C8_topBudget [] [pX, pZ] ("") .ALL .name .name .asc .desc pX pZ).2.2.2.2
      (by decide)⟩

/-- Overwriting a cell keeps the store size. -/
theorem hset_length : ∀ (h : List (List Project)) (i : Nat) (a : List Project),
    (hset h i a).length = h.length
  | [], _, _ => rfl
  | _ :: _, 0, _ => rfl
  | b :: t, n + 1, a => by simp [hset, hset_length t n a]

/-- Allocation preserves the existing cells. -/
theorem hget_append_lt : ∀ (h : List (List Project)) (x : List Project) (i : Nat),
    i < h.length → hget (h ++ [x]) i = hget h i
  | [], _, i, hI => absurd hI (by simp)
  | _ :: _, _, 0, _ => rfl
  | a :: t, x, n + 1, hI => by
    simp only [List.cons_append, hget]
    exact hget_append_lt t x n (by simpa using hI)

/-- The freshly allocated cell holds the allocated contents. -/
theorem hget_append_len : ∀ (h : List (List Project)) (x : List Project),
    hget (h ++ [x]) h.length = x
  | [], _ => rfl
  | a :: t, x => by
    simp only [List.cons_append, List.length_cons, hget]
    exact hget_append_len t x

/-- Overwriting one cell leaves every other cell unchanged. -/
theorem hget_hset_ne : ∀ (h : List (List Project)) (i j : Nat) (a : List Project),
    i ≠ j → hget (hset h i a) j = hget h j
  | [], _, _, _, _ => rfl
  | _ :: _, 0, 0, _, hij => absurd rfl hij
  | _ :: _, 0, _ + 1, _, _ => rfl
  | _ :: _, _ + 1, 0, _, _ => rfl
  | b :: t, i + 1, j + 1, a, hij => by
    simp only [hset, hget]
    exact hget_hset_ne t i j a (fun hh => hij (by omega))

/-- Overwriting a cell stores the new contents. -/
theorem hget_hset_self : ∀ (h : List (List Project)) (i : Nat) (a : List Project),
    i < h.length → hget (hset h i a) i = a
  | [], _, _, hI => absurd hI (by simp)
  | _ :: _, 0, _, _ => rfl
  | b :: t, i + 1, a, hI => by
    simp only [hset, hget]
    exact hget_hset_self t i a (by simpa using hI)

/-- C10: one recomputation of the kpis.ts/ChartsPanel pipeline, with JS
array allocation and in-place sorting modelled explicitly, leaves the
input snapshot array untouched; the filtered array ends up holding
exactly the filtered+sorted collection (the chart re-sort happened on a
distinct copy), and the chart copy holds the budget re-sort of it. -/
theorem C10_no_mutation (h0 : List (List Project)) (iProj : Nat)
    (query : String) (sf : StatusFilter) (k : SortKey) (d : SortDir)
    (hi : iProj < h0.length) :
    hget (runPipelineHeap h0 iProj query sf k d).1 iProj = hget h0 iProj
    ∧ hget (runPipelineHeap h0 iProj query sf k d).1
        (runPipelineHeap h0 iProj query sf k d).2.1 =
        filteredSorted (hget h0 iProj) query sf k d
    ∧ hget (runPipelineHeap h0 iProj query sf k d).1
        (runPipelineHeap h0 iProj query sf k d).2.2 =
        (filteredSorted (hget h0 iProj) query sf k d).insertionSort budgetDescLe
    ∧ (runPipelineHeap h0 iProj query sf k d).2.1 ≠ iProj
    ∧ (runPipelineHeap h0 iProj query sf k d).2.2 ≠
        (runPipelineHeap h0 iProj query sf k d).2.1 := by
  simp only [runPipelineHeap, halloc]
  have e1 : hget (h0 ++ [filterStage (hget h0 iProj) query sf]) h0.length =
      filterStage (hget h0 iProj) query sf := hget_append_len _ _
  rw [e1]
  set F := filterStage (hget h0 iProj) query sf with hF
  set H2 := hset (h0 ++ [F]) h0.length (sortStage F k d) with hH2
  have hl2 : H2.length = h0.length + 1 := by rw [hH2, hset_length]; simp
  have e2 : hget H2 h0.length = sortStage F k d := by
    rw [hH2]
    exact hget_hset_self _ _ _ (by simp)
  rw [e2]
  set S := sortStage F k d with hS
  have e3 : hget (H2 ++ [S]) H2.length = S := hget_append_len _ _
  rw [e3]
  refine ⟨?_, ?_, ?_, by omega, by omega⟩
  · rw [hget_hset_ne _ _ _ _ (by omega : H2.length ≠ iProj),
      hget_append_lt _ _ _ (by omega : iProj < H2.length),
      hH2, hget_hset_ne _ _ _ _ (by omega : h0.length ≠ iProj),
      hget_append_lt _ _ _ hi]
  · rw [hget_hset_ne _ _ _ _ (by omega : H2.length ≠ h0.length),
      hget_append_lt _ _ _ (by omega : h0.length < H2.length), e2, hS, hF]
    rfl
  · rw [hget_hset_self _ _ _ (by simp : H2.length < (H2 ++ [S]).length), hS, hF]
    rfl

/-- Witness for C10 on a one-array store. -/
theorem C10_witness :
    0 < ([[pX]] : List (List Project)).length
    ∧ hget (runPipelineHeap [[pX]] 0 ("") .ALL .name .asc).1 0 = [pX] :=
  ⟨by decide,
    ((C10_no_mutation [[pX]] 0 ("") .ALL .name .asc (by decide)).1).trans (by decide)⟩
